import Mathlib

/-!
Verification of the yoked_backend fitness-tracking service layer.

The development shallowly embeds the Go service code (`internal/services/
program_service.go`, `internal/services/user_service.go`), the repository
layer backed by the `user_programs` / `workout_exercises` tables
(`internal/db/repositories`, `internal/db/schema.sql`), and settles the
stated properties about them.

Modelling conventions:
* Go `float64` arithmetic is modelled over the exact rationals `ℚ`;
  decimal literals in the source denote the corresponding exact rational.
  The numeric type declarations in the Go source are internally
  inconsistent (e.g. `calculateBaseStrength` is declared to return `int`
  while computing a `float64`, the exercise-modifier map is declared
  `map[int]int` with fractional values, and `(user.Age-13)/120` mixes an
  `int` with the untyped constant `0.9`, so the file does not compile as
  written); the embedding follows the arithmetic the expressions denote,
  i.e. all of these computations are carried out with real division over
  `ℚ`, which is the only coherent reading of the expressions.
* Fallible repository calls are modelled with `Except String`, carrying
  the error message the corresponding Go path produces.
* The relational store is modelled as a list of rows in insertion order;
  a `QueryRow` that matches several rows reads the first one, and a
  `QueryRow` that matches none fails with the pgx v5 error
  `"no rows in result set"` (the repository layer is built on
  `github.com/jackc/pgx/v5/pgxpool`, whose `ErrNoRows` carries exactly
  that message; it differs from `database/sql`'s
  `"sql: no rows in result set"`).
-/

/-- `models.User` (internal/models/user.go). `CreatedAt`/`UpdatedAt` are
database-managed timestamps not used by the verified logic and are omitted. -/
structure User where
  id : String
  email : String
  passwordHash : String
  name : String
  age : ℤ
  sex : String
  height : ℚ
  weight : ℚ
  activityLevel : String
  goal : String
  programID : ℤ
  weeklyBudget : ℚ
deriving Repr, DecidableEq

/-- `models.UserProgram` (internal/models/user.go). The start date is an
abstract timestamp (`time.Time` modelled as `ℤ`); `CreatedAt` is omitted. -/
structure UserProgram where
  id : ℤ
  userID : String
  programID : ℤ
  startDate : ℤ
  isActive : Bool
deriving Repr, DecidableEq

/-- `models.ProgramWorkoutExercise` (internal/models/program.go). The Go
struct declares `PrescribedWeight int` while the schema column is `REAL` and
the service mixes it with `float64` weights; it is modelled as `ℚ`. -/
structure ProgramWorkoutExercise where
  id : ℤ
  programWorkoutID : ℤ
  exerciseID : ℤ
  sets : ℤ
  reps : ℤ
  targetRIR : ℤ
  prescribedWeight : ℚ
  exerciseOrder : ℤ
  notes : String
deriving Repr, DecidableEq

/-- `models.WorkoutExerciseLog` (internal/models/program.go);
`CreatedAt` omitted. -/
structure WorkoutExerciseLog where
  id : ℤ
  workoutID : ℤ
  programWorkoutExerciseID : ℤ
  actualReps : List ℤ
  actualRIR : List ℤ
deriving Repr, DecidableEq

/-- `services.ExerciseLogRequest` (internal/services/program_service.go). -/
structure ExerciseLogRequest where
  programWorkoutExerciseID : ℤ
  actualReps : List ℤ
  actualRIR : List ℤ
deriving Repr, DecidableEq

/-- Go's `math.Round`: round to the nearest integer, halves away from zero. -/
def mathRound (x : ℚ) : ℤ :=
  if x < 0 then -⌊-x + 1/2⌋ else ⌊x + 1/2⌋

/-- `math.Round(x/2.5)*2.5`, the rounding applied to every suggested weight
(program_service.go lines 190 and 307). -/
def roundToIncrement (x : ℚ) : ℚ :=
  (mathRound (x / 2.5) : ℚ) * 2.5

/-- `calculateAverageRIR` (program_service.go lines 313-319): a running
integer sum over the array, then `float64(sum) / float64(len(rirArray))`,
with no guard for an empty array. -/
def calculateAverageRIR (rirArray : List ℤ) : ℚ :=
  ((rirArray.foldl (fun sum rir => sum + rir) 0 : ℤ) : ℚ) / (rirArray.length : ℚ)

/-- `calculateWeightAdjustment` (program_service.go lines 321-336); the
local `difference := targetRIR - actualRIR` is inlined. -/
def calculateWeightAdjustment (actualRIR targetRIR : ℚ) : ℚ :=
  if targetRIR - actualRIR ≥ 2 then 0.9
  else if targetRIR - actualRIR ≤ -2 then 1.1
  else if targetRIR - actualRIR ≥ 1 then 0.95
  else if targetRIR - actualRIR ≤ -1 then 1.05
  else 1.0

/-- `calculateBaseStrength` (program_service.go lines 197-211). -/
def calculateBaseStrength (user : User) : ℚ :=
  let base := user.weight * 0.6
  let base := if user.sex = "male" then base * 1.2 else base
  if user.age < 25 then base * (0.9 + ((user.age : ℚ) - 13) / 120)
  else if user.age > 35 then base * (1.1 - ((user.age : ℚ) - 35) / 100)
  else base

/-- `getExerciseModifier` (program_service.go lines 213-222): a literal Go
map lookup; a key outside the map yields the zero value of the element
type, i.e. `0`. -/
def getExerciseModifier (exerciseID : ℤ) : ℚ :=
  match exerciseID with
  | 1 => 1.0
  | 2 => 0.8
  | 3 => 1.2
  | 4 => 1.1
  | 5 => 0.5
  | _ => 0

/-- C1: calculateWeightAdjustment is a total function of difference =
targetRIR − averageRIR: every difference maps to exactly one multiplier in
{0.90, 0.95, 1.00, 1.05, 1.10}, the tiers are evaluated in order with first
match winning (0.90 if difference ≥ 2, else 1.10 if difference ≤ −2, else
0.95 if difference ≥ 1, else 1.05 if difference ≤ −1, else 1.00); and
targetRIR = 2 with actual-RIR array [4,4,4] (average 4, difference −2)
gives multiplier 1.10. -/
theorem calculateWeightAdjustment_tiers (actualRIR targetRIR : ℚ) :
    (calculateWeightAdjustment actualRIR targetRIR = 0.9 ∨
      calculateWeightAdjustment actualRIR targetRIR = 0.95 ∨
      calculateWeightAdjustment actualRIR targetRIR = 1.0 ∨
      calculateWeightAdjustment actualRIR targetRIR = 1.05 ∨
      calculateWeightAdjustment actualRIR targetRIR = 1.1) ∧
    (targetRIR - actualRIR ≥ 2 →
      calculateWeightAdjustment actualRIR targetRIR = 0.9) ∧
    (¬ targetRIR - actualRIR ≥ 2 → targetRIR - actualRIR ≤ -2 →
      calculateWeightAdjustment actualRIR targetRIR = 1.1) ∧
    (¬ targetRIR - actualRIR ≥ 2 → ¬ targetRIR - actualRIR ≤ -2 →
      targetRIR - actualRIR ≥ 1 →
      calculateWeightAdjustment actualRIR targetRIR = 0.95) ∧
    (¬ targetRIR - actualRIR ≥ 2 → ¬ targetRIR - actualRIR ≤ -2 →
      ¬ targetRIR - actualRIR ≥ 1 → targetRIR - actualRIR ≤ -1 →
      calculateWeightAdjustment actualRIR targetRIR = 1.05) ∧
    (¬ targetRIR - actualRIR ≥ 2 → ¬ targetRIR - actualRIR ≤ -2 →
      ¬ targetRIR - actualRIR ≥ 1 → ¬ targetRIR - actualRIR ≤ -1 →
      calculateWeightAdjustment actualRIR targetRIR = 1.0) ∧
    calculateWeightAdjustment (calculateAverageRIR [4, 4, 4]) 2 = 1.1 := by
  refine ⟨?_, ?_, ?_, ?_, ?_, ?_,
      by norm_num [calculateAverageRIR, calculateWeightAdjustment]⟩ <;>
    simp only [calculateWeightAdjustment] <;> split_ifs <;> tauto

/-- C1 witness: the tier theorem applied at actualRIR = 4, targetRIR = 2
(difference −2, second tier) and at actualRIR = 0, targetRIR = 2
(difference 2, first tier). -/
theorem calculateWeightAdjustment_tiers_witness :
    calculateWeightAdjustment 4 2 = 1.1 ∧ calculateWeightAdjustment 0 2 = 0.9 :=
  ⟨(calculateWeightAdjustment_tiers 4 2).2.2.1 (by norm_num) (by norm_num),
    (calculateWeightAdjustment_tiers 0 2).2.1 (by norm_num)⟩

/-- C2: for a user of body weight w, sex s, and age 13 ≤ a ≤ 120, the base
strength is w × 0.6, further multiplied by 1.2 when the sex is male, and by
the age factor 0.9 + (a−13)/120 when a < 25, 1.1 − (a−35)/100 when a > 35,
and exactly 1 for every age from 25 to 35 inclusive. -/
theorem calculateBaseStrength_spec (u : User)
    (h13 : 13 ≤ u.age) (h120 : u.age ≤ 120) :
    calculateBaseStrength u =
      u.weight * 0.6 * (if u.sex = "male" then 1.2 else 1) *
        (if u.age < 25 then 0.9 + ((u.age : ℚ) - 13) / 120
         else if u.age > 35 then 1.1 - ((u.age : ℚ) - 35) / 100
         else 1) ∧
    (25 ≤ u.age → u.age ≤ 35 →
      calculateBaseStrength u =
        u.weight * 0.6 * (if u.sex = "male" then 1.2 else 1)) := by
  constructor
  · simp only [calculateBaseStrength]
    split_ifs <;> ring
  · intro h25 h35
    have hlt : ¬ u.age < 25 := by omega
    have hgt : ¬ u.age > 35 := by omega
    simp only [calculateBaseStrength, if_neg hlt, if_neg hgt]
    split_ifs <;> ring

/-- C2 witness: the spec theorem applied at an 80 kg male user aged 30
(inside the 25–35 band): base strength 80 × 0.6 × 1.2 = 57.6. -/
theorem calculateBaseStrength_spec_witness :
    calculateBaseStrength
      { id := "u1", email := "a@b.c", passwordHash := "h", name := "Test",
        age := 30, sex := "male", height := 175, weight := 80,
        activityLevel := "moderately_active", goal := "muscle_gain",
        programID := 1, weeklyBudget := 0 } = 57.6 := by
  have h := calculateBaseStrength_spec
    { id := "u1", email := "a@b.c", passwordHash := "h", name := "Test",
      age := 30, sex := "male", height := 175, weight := 80,
      activityLevel := "moderately_active", goal := "muscle_gain",
      programID := 1, weeklyBudget := 0 } (by norm_num) (by norm_num)
  rw [h.2 (by norm_num) (by norm_num)]
  norm_num

/-- C3: the fixed modifier table covers ids 1–5 (1.0, 0.8, 1.2, 1.1, 0.5);
for every id outside it the Go map lookup yields the zero value, so
`getExerciseModifier` returns 0 — not the defined non-zero default the
specification requires. Evaluated at unknown ids 0, 6, −1 and 100. -/
theorem getExerciseModifier_unknown_is_zero :
    getExerciseModifier 6 = 0 ∧ getExerciseModifier 0 = 0 ∧
    getExerciseModifier (-1) = 0 ∧ getExerciseModifier 100 = 0 := by
  refine ⟨rfl, rfl, rfl, rfl⟩

/-- The rows selected by `GetUserActiveProgram`'s query
(repository/program_repo.go lines 235-236):
`WHERE user_id = $1 AND is_active = true`, in store order. -/
def activeRows (db : List UserProgram) (userID : String) : List UserProgram :=
  db.filter (fun up => up.userID == userID && up.isActive)

/-- `GetUserActiveProgram` (repository/program_repo.go lines 234-250):
`QueryRow(...).Scan(...)` reads the first matching row; with no matching row
pgx v5's `Scan` fails with `ErrNoRows`, whose message is
"no rows in result set". -/
def getUserActiveProgram (db : List UserProgram) (userID : String) :
    Except String UserProgram :=
  match activeRows db userID with
  | [] => Except.error "no rows in result set"
  | up :: _ => Except.ok up

/-- `UpdateUserProgram` (repository/program_repo.go lines 267-280):
`UPDATE user_programs SET is_active = $1 WHERE id = $2`, erroring with
"user program not found" when no row is affected. -/
def updateUserProgram (db : List UserProgram) (userProgram : UserProgram) :
    Except String (List UserProgram) :=
  if db.any (fun up => up.id == userProgram.id) then
    Except.ok (db.map (fun up =>
      if up.id == userProgram.id then { up with isActive := userProgram.isActive }
      else up))
  else Except.error "user program not found"

/-- The id handed out by the store's `SERIAL` column for the next
`INSERT INTO user_programs`. -/
def freshId (db : List UserProgram) : ℤ :=
  db.foldl (fun m up => max m up.id) 0 + 1

/-- `CreateUserProgram` (repository/program_repo.go lines 225-232):
`INSERT INTO user_programs ... RETURNING id`. -/
def createUserProgram (db : List UserProgram) (userProgram : UserProgram) :
    List UserProgram :=
  db ++ [{ userProgram with id := freshId db }]

/-- `AssignProgramToUser` (program_service.go lines 77-100). The guard
`err.Error() != "sql: no rows in result set"` absorbs only `database/sql`'s
no-rows message; the pgx-backed repository produces
"no rows in result set", which is not absorbed. -/
def assignProgramToUser (db : List UserProgram) (userID : String)
    (programID : ℤ) (now : ℤ) : Except String (List UserProgram) :=
  let fetch : Except String (Option UserProgram) :=
    match getUserActiveProgram db userID with
    | Except.error e =>
        if e = "sql: no rows in result set" then Except.ok none
        else Except.error e
    | Except.ok up => Except.ok (some up)
  match fetch with
  | Except.error e => Except.error e
  | Except.ok current =>
      let deactivated : Except String (List UserProgram) :=
        match current with
        | none => Except.ok db
        | some up => updateUserProgram db { up with isActive := false }
      match deactivated with
      | Except.error e => Except.error e
      | Except.ok db1 =>
          Except.ok (createUserProgram db1
            { id := 0, userID := userID, programID := programID,
              startDate := now, isActive := true })

/-- C4: if a user has at most one active UserProgram row and
AssignProgramToUser succeeds, then exactly one active row remains for that
user — the newly created one, active, with the requested program id and
start date set to the assignment time (the prior active row, if any, having
been set inactive and persisted first). -/
theorem assignProgramToUser_single_active
    (db db' : List UserProgram) (userID : String) (programID now : ℤ)
    (hinv : (activeRows db userID).length ≤ 1)
    (hok : assignProgramToUser db userID programID now = Except.ok db') :
    (activeRows db' userID).map (fun up => (up.programID, up.startDate, up.isActive)) =
      [(programID, now, true)] := by
  rcases hrows : activeRows db userID with _ | ⟨p, rest⟩
  · have hga : getUserActiveProgram db userID = Except.error "no rows in result set" := by
      rw [getUserActiveProgram, hrows]
    simp [assignProgramToUser, hga] at hok
  · have hrest : rest = [] := by
      rw [hrows] at hinv
      simp only [List.length_cons] at hinv
      exact List.length_eq_zero.mp (by omega)
    subst hrest
    have hpmem : p ∈ db := by
      have hp : p ∈ activeRows db userID := by
        rw [hrows]; exact List.mem_singleton_self p
      rw [activeRows] at hp
      exact List.mem_of_mem_filter hp
    have hga : getUserActiveProgram db userID = Except.ok p := by
      rw [getUserActiveProgram, hrows]
    have hany : db.any (fun up => up.id == p.id) = true :=
      List.any_eq_true.mpr ⟨p, hpmem, by simp⟩
    have hupd : updateUserProgram db { p with isActive := false } =
        Except.ok (db.map (fun up =>
          if up.id == p.id then { up with isActive := false } else up)) := by
      rw [updateUserProgram]
      simp [hany]
    simp only [assignProgramToUser, hga, hupd] at hok
    rw [Except.ok.injEq] at hok
    subst hok
    rw [createUserProgram, activeRows, List.filter_append]
    have hdeact : (db.map (fun up =>
        if up.id == p.id then { up with isActive := false } else up)).filter
          (fun up => up.userID == userID && up.isActive) = [] := by
      rw [List.filter_eq_nil_iff]
      intro q hq
      rcases List.mem_map.mp hq with ⟨r, hr, hqr⟩
      by_cases hid : (r.id == p.id) = true
      · rw [if_pos hid] at hqr
        subst hqr
        simp
      · rw [if_neg hid] at hqr
        subst hqr
        intro hact
        have hmemr : r ∈ activeRows db userID := by
          rw [activeRows]
          exact List.mem_filter.mpr ⟨hr, by simpa using hact⟩
        rw [hrows, List.mem_singleton] at hmemr
        subst hmemr
        exact hid (by simp)
    rw [hdeact]
    simp [activeRows]

/-- C4 witness: a user active on program 1 (row id 1) is assigned program 2
at time 5; afterwards the only active row for the user carries program 2,
start date 5, active. The single-active theorem is applied at this store. -/
theorem assignProgramToUser_single_active_witness :
    (activeRows
        [UserProgram.mk 1 "u1" 1 0 false, UserProgram.mk 2 "u1" 2 5 true]
        "u1").map (fun up => (up.programID, up.startDate, up.isActive)) =
      [(2, 5, true)] :=
  assignProgramToUser_single_active [UserProgram.mk 1 "u1" 1 0 true]
    [UserProgram.mk 1 "u1" 1 0 false, UserProgram.mk 2 "u1" 2 5 true]
    "u1" 2 5 (by decide) (by rfl)

/-- C5: for a user with no active UserProgram row, the active-program lookup
fails with pgx's "no rows in result set"; the service's guard absorbs only
"sql: no rows in result set", so AssignProgramToUser returns the error and
never reaches the create — contrary to the specified
"absence is not an error" behaviour. -/
theorem assignProgramToUser_no_active_is_error
    (db : List UserProgram) (userID : String) (programID now : ℤ)
    (h : activeRows db userID = []) :
    assignProgramToUser db userID programID now =
      Except.error "no rows in result set" := by
  have hga : getUserActiveProgram db userID = Except.error "no rows in result set" := by
    rw [getUserActiveProgram, h]
  simp [assignProgramToUser, hga]

/-- C5 witness: the no-active-row theorem applied at the empty store. -/
theorem assignProgramToUser_no_active_is_error_witness :
    assignProgramToUser [] "u1" 7 0 = Except.error "no rows in result set" :=
  assignProgramToUser_no_active_is_error [] "u1" 7 0 rfl

/-- `CreateWorkoutExerciseLog` (repository/program_repo.go lines 351-359):
`INSERT INTO workout_exercises ...`. The `workout_exercises` table
(schema.sql) enforces `CHECK (array_length(actual_reps,1) > 0)`,
`CHECK (array_length(actual_rir,1) > 0)` and
`CONSTRAINT same_number_of_sets CHECK
(array_length(actual_reps,1) = array_length(actual_rir,1))`; an insert
violating any of them fails and stores nothing. -/
def createWorkoutExerciseLog (db : List WorkoutExerciseLog)
    (logRow : WorkoutExerciseLog) : Except String (List WorkoutExerciseLog) :=
  if 0 < logRow.actualReps.length ∧ 0 < logRow.actualRIR.length ∧
      logRow.actualReps.length = logRow.actualRIR.length then
    Except.ok (db ++ [logRow])
  else
    Except.error "new row for relation workout_exercises violates check constraint"

/-- `CompleteWorkoutSession` (program_service.go lines 248-262): one insert
per request, stopping at the first failing insert; there is no surrounding
transaction, so rows inserted before a failure stay in the store. Returns
the store together with the error, if any. The store-assigned `SERIAL` id
is not tracked (modelled as 0). -/
def completeWorkoutSession (db : List WorkoutExerciseLog) (sessionID : ℤ) :
    List ExerciseLogRequest → List WorkoutExerciseLog × Option String
  | [] => (db, none)
  | exercise :: rest =>
      match createWorkoutExerciseLog db
          { id := 0, workoutID := sessionID,
            programWorkoutExerciseID := exercise.programWorkoutExerciseID,
            actualReps := exercise.actualReps,
            actualRIR := exercise.actualRIR } with
      | Except.error e => (db, some e)
      | Except.ok db1 => completeWorkoutSession db1 sessionID rest

/-- C9: for every starting store whose logs satisfy the equal-length
invariant and every list of exercise-log requests, every WorkoutExerciseLog
in the store after CompleteWorkoutSession has actual-reps and actual-RIR
arrays of the same length — requests violating it are rejected by the
store's check constraint and never persisted. -/
theorem completeWorkoutSession_equal_lengths
    (db : List WorkoutExerciseLog) (sessionID : ℤ)
    (requests : List ExerciseLogRequest)
    (hdb : ∀ logRow ∈ db, logRow.actualReps.length = logRow.actualRIR.length) :
    ∀ logRow ∈ (completeWorkoutSession db sessionID requests).1,
      logRow.actualReps.length = logRow.actualRIR.length := by
  induction requests generalizing db with
  | nil => simpa [completeWorkoutSession] using hdb
  | cons exercise rest ih =>
      rw [completeWorkoutSession, createWorkoutExerciseLog]
      split_ifs with hchk
      · refine ih _ ?_
        intro logRow hmem
        rcases List.mem_append.mp hmem with hmem | hmem
        · exact hdb logRow hmem
        · rw [List.mem_singleton] at hmem
          subst hmem
          exact hchk.2.2
      · exact hdb

/-- C9 witness: starting from the empty store, a well-formed request
([8,8] reps, [2,2] RIR) followed by a malformed one ([8] reps, [2,2] RIR);
only the well-formed log is stored, and the equal-length theorem applied to
it gives 2 = 2. -/
theorem completeWorkoutSession_equal_lengths_witness :
    (WorkoutExerciseLog.mk 0 1 1 [8, 8] [2, 2]).actualReps.length =
      (WorkoutExerciseLog.mk 0 1 1 [8, 8] [2, 2]).actualRIR.length :=
  completeWorkoutSession_equal_lengths [] 1
    [ExerciseLogRequest.mk 1 [8, 8] [2, 2], ExerciseLogRequest.mk 2 [8] [2, 2]]
    (by simp) (WorkoutExerciseLog.mk 0 1 1 [8, 8] [2, 2]) (by decide)

/-- The running sum in `calculateAverageRIR`'s loop is the list sum. -/
theorem foldl_add_eq_sum (init : ℤ) (l : List ℤ) :
    l.foldl (fun sum rir => sum + rir) init = init + l.sum := by
  induction l generalizing init with
  | nil => simp
  | cons x xs ih =>
      rw [List.foldl_cons, List.sum_cons, ih]
      ring

/-- C10: calculateAverageRIR divides the array sum by the array length with
no emptiness guard; for every non-empty RIR array the divisor is non-zero
and the result is the arithmetic mean (sum divided by length), so the
division-by-zero case is avoided exactly under the non-emptiness
precondition. -/
theorem calculateAverageRIR_mean (rirArray : List ℤ) (h : rirArray ≠ []) :
    (rirArray.length : ℚ) ≠ 0 ∧
      calculateAverageRIR rirArray =
        ((rirArray.sum : ℤ) : ℚ) / (rirArray.length : ℚ) := by
  have hlen : rirArray.length ≠ 0 := fun hc => h (List.length_eq_zero.mp hc)
  refine ⟨by exact_mod_cast hlen, ?_⟩
  rw [calculateAverageRIR, foldl_add_eq_sum]
  norm_num

/-- C10 witness: the mean theorem applied at the non-empty array [4,4,4]. -/
theorem calculateAverageRIR_mean_witness :
    (([4, 4, 4] : List ℤ).length : ℚ) ≠ 0 ∧
      calculateAverageRIR [4, 4, 4] =
        ((([4, 4, 4] : List ℤ).sum : ℤ) : ℚ) / (([4, 4, 4] : List ℤ).length : ℚ) :=
  calculateAverageRIR_mean [4, 4, 4] (by decide)

/-- The suggested weight `CalculateInitialWeights` computes for one program
exercise (the loop body, program_service.go lines 180-191): a non-zero
prescribed weight wins unchanged; otherwise base strength times the
exercise modifier, rounded to the nearest 2.5. -/
def initialWeightForExercise (user : User)
    (exercise : ProgramWorkoutExercise) : ℚ :=
  if exercise.prescribedWeight > 0 then exercise.prescribedWeight
  else roundToIncrement (calculateBaseStrength user *
    getExerciseModifier exercise.exerciseID)

/-- `CalculateInitialWeights` (program_service.go lines 166-195): one weight
map entry per exercise over every workout of the program, keyed by the
program-workout-exercise id, in store order. -/
def calculateInitialWeights (user : User) :
    List (List ProgramWorkoutExercise) → List (ℤ × ℚ)
  | [] => []
  | exercises :: rest =>
      exercises.map (fun exercise =>
        (exercise.id, initialWeightForExercise user exercise)) ++
        calculateInitialWeights user rest

/-- C7: for every program exercise of any workout of the program template
whose prescribed weight is non-zero, CalculateInitialWeights maps that
exercise to exactly the prescribed weight — no base-strength computation,
exercise modifier, or rounding is applied to it. -/
theorem calculateInitialWeights_prescribed_override
    (user : User) (workouts : List (List ProgramWorkoutExercise))
    (exercises : List ProgramWorkoutExercise)
    (exercise : ProgramWorkoutExercise)
    (hw : exercises ∈ workouts) (he : exercise ∈ exercises)
    (hpw : 0 < exercise.prescribedWeight) :
    (exercise.id, exercise.prescribedWeight) ∈
      calculateInitialWeights user workouts := by
  induction workouts with
  | nil => cases hw
  | cons ws rest ih =>
      rw [calculateInitialWeights]
      rw [List.mem_append]
      rcases List.mem_cons.mp hw with h | h
      · left
        subst h
        refine List.mem_map.mpr ⟨exercise, he, ?_⟩
        rw [initialWeightForExercise, if_pos hpw]
      · right
        exact ih h

/-- C7 witness: the override theorem applied to a template holding a single
exercise (id 10) with prescribed weight 100; the returned map contains
(10, 100). -/
theorem calculateInitialWeights_prescribed_override_witness :
    ((10 : ℤ), (100 : ℚ)) ∈
      calculateInitialWeights
        (User.mk "u1" "a@b.c" "h" "Test" 30 "male" 175 80
          "moderately_active" "muscle_gain" 1 0)
        [[ProgramWorkoutExercise.mk 10 1 1 3 8 2 100 1 ""]] :=
  calculateInitialWeights_prescribed_override
    (User.mk "u1" "a@b.c" "h" "Test" 30 "male" 175 80
      "moderately_active" "muscle_gain" 1 0)
    [[ProgramWorkoutExercise.mk 10 1 1 3 8 2 100 1 ""]]
    [ProgramWorkoutExercise.mk 10 1 1 3 8 2 100 1 ""]
    (ProgramWorkoutExercise.mk 10 1 1 3 8 2 100 1 "")
    (List.mem_singleton_self _) (List.mem_singleton_self _) (by norm_num)

/-- The per-exercise weight formula of the progressive-overload contract
(spec.md section 4.2), for comparison with `calculateNextWorkoutWeights`:
previous weight (the hardcoded placeholder 50.0, identical for every
exercise) times the tier multiplier for the exercise's target and average
RIR, rounded to the nearest 2.5. -/
def nextWeightSpec (lookup : ℤ → Option ProgramWorkoutExercise)
    (logRow : WorkoutExerciseLog) : ℚ :=
  match lookup logRow.programWorkoutExerciseID with
  | some programExercise =>
      roundToIncrement (50 * calculateWeightAdjustment
        (calculateAverageRIR logRow.actualRIR) (programExercise.targetRIR : ℚ))
  | none => 0

/-- `CalculateNextWorkoutWeights` (program_service.go lines 276-311), after
the last matching session and its logs have been fetched: `lookup` stands
for `GetProgramWorkoutExercise` (erroring like pgx when the id is unknown);
each log contributes one weight map entry keyed by its
program-workout-exercise id; `currentWeight` is the hardcoded 50.0. -/
def calculateNextWorkoutWeights (lookup : ℤ → Option ProgramWorkoutExercise) :
    List WorkoutExerciseLog → Except String (List (ℤ × ℚ))
  | [] => Except.ok []
  | logRow :: rest =>
      match lookup logRow.programWorkoutExerciseID with
      | none => Except.error "no rows in result set"
      | some programExercise =>
          let avgRIR := calculateAverageRIR logRow.actualRIR
          let weightAdjustment :=
            calculateWeightAdjustment avgRIR (programExercise.targetRIR : ℚ)
          let currentWeight : ℚ := 50.0
          let newWeight := currentWeight * weightAdjustment
          match calculateNextWorkoutWeights lookup rest with
          | Except.error e => Except.error e
          | Except.ok weightMap =>
              Except.ok ((logRow.programWorkoutExerciseID,
                roundToIncrement newWeight) :: weightMap)

/-- C6: whenever CalculateNextWorkoutWeights succeeds, the weight map has
exactly one entry per logged exercise of the session, equal to
round(previousWeight × multiplier / 2.5) × 2.5 with the tier multiplier
computed from that exercise's target and average RIR — and previousWeight
is the hardcoded placeholder 50.0, identical for every exercise, not a
per-exercise last-used weight. -/
theorem calculateNextWorkoutWeights_formula
    (lookup : ℤ → Option ProgramWorkoutExercise)
    (logs : List WorkoutExerciseLog) (weightMap : List (ℤ × ℚ))
    (hok : calculateNextWorkoutWeights lookup logs = Except.ok weightMap) :
    weightMap = logs.map (fun logRow =>
      (logRow.programWorkoutExerciseID, nextWeightSpec lookup logRow)) := by
  induction logs generalizing weightMap with
  | nil =>
      rw [calculateNextWorkoutWeights] at hok
      rw [Except.ok.injEq] at hok
      subst hok
      rfl
  | cons logRow rest ih =>
      rw [calculateNextWorkoutWeights] at hok
      rcases hl : lookup logRow.programWorkoutExerciseID with _ | programExercise
      · rw [hl] at hok
        cases hok
      · rw [hl] at hok
        simp only at hok
        rcases hr : calculateNextWorkoutWeights lookup rest with e | m
        · rw [hr] at hok
          cases hok
        · rw [hr] at hok
          rw [Except.ok.injEq] at hok
          subst hok
          rw [List.map_cons, ih m hr, nextWeightSpec, hl]
          norm_num

/-- C6 witness: one logged exercise (id 1, RIR [4,4,4]) against a template
exercise with target RIR 2: multiplier 1.10, new weight
round(50 × 1.10 / 2.5) × 2.5 = 55; the formula theorem applied to the
computed map [(1, 55)]. -/
theorem calculateNextWorkoutWeights_formula_witness :
    [((1 : ℤ), (55 : ℚ))] =
      [WorkoutExerciseLog.mk 7 3 1 [8, 8, 8] [4, 4, 4]].map (fun logRow =>
        (logRow.programWorkoutExerciseID,
          nextWeightSpec (fun _ => some (ProgramWorkoutExercise.mk 1 1 1 3 8 2 0 1 ""))
            logRow)) :=
  calculateNextWorkoutWeights_formula
    (fun _ => some (ProgramWorkoutExercise.mk 1 1 1 3 8 2 0 1 ""))
    [WorkoutExerciseLog.mk 7 3 1 [8, 8, 8] [4, 4, 4]]
    [((1 : ℤ), (55 : ℚ))]
    (by norm_num [calculateNextWorkoutWeights, calculateAverageRIR,
      calculateWeightAdjustment, roundToIncrement, mathRound])

/-- A value of Go's `interface{}` as it reaches the profile-update switch:
the type assertions `value.(float64)`, `value.(int)`, `value.(string)`
succeed only on the matching variant. -/
inductive UpdateValue where
  | vInt : ℤ → UpdateValue
  | vFloat : ℚ → UpdateValue
  | vString : String → UpdateValue
  | vOther : UpdateValue
deriving Repr, DecidableEq

/-- Go's `strings.TrimSpace`: drop leading and trailing whitespace. -/
def trimSpace (s : String) : String :=
  String.mk (((s.data.dropWhile Char.isWhitespace).reverse.dropWhile
    Char.isWhitespace).reverse)

/-- One iteration of the `validateAndApplyProfileUpdates` switch
(user_service.go lines 108-143): a field is assigned only when the type
assertion succeeds and the range/set check passes; otherwise the user is
returned unchanged. -/
def applyProfileUpdate (user : User) (key : String) (value : UpdateValue) : User :=
  if key = "weight" then
    match value with
    | UpdateValue.vInt _ => user
    | UpdateValue.vFloat weight =>
        if 20 ≤ weight ∧ weight ≤ 500 then { user with weight := weight } else user
    | UpdateValue.vString _ => user
    | UpdateValue.vOther => user
  else if key = "height" then
    match value with
    | UpdateValue.vInt _ => user
    | UpdateValue.vFloat height =>
        if 30 ≤ height ∧ height ≤ 250 then { user with height := height } else user
    | UpdateValue.vString _ => user
    | UpdateValue.vOther => user
  else if key = "age" then
    match value with
    | UpdateValue.vInt age =>
        if 13 ≤ age ∧ age ≤ 120 then { user with age := age } else user
    | UpdateValue.vFloat _ => user
    | UpdateValue.vString _ => user
    | UpdateValue.vOther => user
  else if key = "goal" then
    match value with
    | UpdateValue.vInt _ => user
    | UpdateValue.vFloat _ => user
    | UpdateValue.vString goal =>
        if goal = "weight_loss" ∨ goal = "muscle_gain" ∨ goal = "maintenance" ∨
            goal = "endurance" then { user with goal := goal } else user
    | UpdateValue.vOther => user
  else if key = "program_id" then
    match value with
    | UpdateValue.vInt programID =>
        if 0 < programID then { user with programID := programID } else user
    | UpdateValue.vFloat _ => user
    | UpdateValue.vString _ => user
    | UpdateValue.vOther => user
  else if key = "activity_level" then
    match value with
    | UpdateValue.vInt _ => user
    | UpdateValue.vFloat _ => user
    | UpdateValue.vString activityLevel =>
        if activityLevel = "sedentary" ∨ activityLevel = "lightly_active" ∨
            activityLevel = "moderately_active" ∨ activityLevel = "very_active" ∨
            activityLevel = "extra_active" then
          { user with activityLevel := activityLevel }
        else user
    | UpdateValue.vOther => user
  else if key = "weekly_budget" then
    match value with
    | UpdateValue.vInt _ => user
    | UpdateValue.vFloat budget =>
        if 0 ≤ budget then { user with weeklyBudget := budget } else user
    | UpdateValue.vString _ => user
    | UpdateValue.vOther => user
  else if key = "name" then
    match value with
    | UpdateValue.vInt _ => user
    | UpdateValue.vFloat _ => user
    | UpdateValue.vString name =>
        if trimSpace name ≠ "" then { user with name := trimSpace name } else user
    | UpdateValue.vOther => user
  else user

/-- `validateAndApplyProfileUpdates` (user_service.go lines 98-146): every
key/value pair of the update map is processed independently (Go map
iteration order is arbitrary; the pairs are modelled in some order, and
each key touches a distinct field). The function never returns an error. -/
def validateAndApplyProfileUpdates (user : User) :
    List (String × UpdateValue) → User
  | [] => user
  | (key, value) :: rest =>
      validateAndApplyProfileUpdates (applyProfileUpdate user key value) rest

/-- Observation of the stored field that an update key addresses
(wrapped in `UpdateValue` so all eight fields are observed uniformly);
keys outside the switch observe nothing. -/
def fieldValue (key : String) (user : User) : UpdateValue :=
  if key = "weight" then UpdateValue.vFloat user.weight
  else if key = "height" then UpdateValue.vFloat user.height
  else if key = "age" then UpdateValue.vInt user.age
  else if key = "goal" then UpdateValue.vString user.goal
  else if key = "program_id" then UpdateValue.vInt user.programID
  else if key = "activity_level" then UpdateValue.vString user.activityLevel
  else if key = "weekly_budget" then UpdateValue.vFloat user.weeklyBudget
  else if key = "name" then UpdateValue.vString user.name
  else UpdateValue.vOther

/-- The exact condition under which the switch case for `key` assigns: the
type assertion succeeds and the range/set check passes — guard for guard as
in user_service.go lines 108-143; keys outside the switch never assign. -/
def validUpdate (key : String) (value : UpdateValue) : Prop :=
  if key = "weight" then
    match value with
    | UpdateValue.vFloat weight => 20 ≤ weight ∧ weight ≤ 500
    | _ => False
  else if key = "height" then
    match value with
    | UpdateValue.vFloat height => 30 ≤ height ∧ height ≤ 250
    | _ => False
  else if key = "age" then
    match value with
    | UpdateValue.vInt age => 13 ≤ age ∧ age ≤ 120
    | _ => False
  else if key = "goal" then
    match value with
    | UpdateValue.vString goal =>
        goal = "weight_loss" ∨ goal = "muscle_gain" ∨ goal = "maintenance" ∨
          goal = "endurance"
    | _ => False
  else if key = "program_id" then
    match value with
    | UpdateValue.vInt programID => 0 < programID
    | _ => False
  else if key = "activity_level" then
    match value with
    | UpdateValue.vString activityLevel =>
        activityLevel = "sedentary" ∨ activityLevel = "lightly_active" ∨
          activityLevel = "moderately_active" ∨ activityLevel = "very_active" ∨
          activityLevel = "extra_active"
    | _ => False
  else if key = "weekly_budget" then
    match value with
    | UpdateValue.vFloat budget => 0 ≤ budget
    | _ => False
  else if key = "name" then
    match value with
    | UpdateValue.vString name => trimSpace name ≠ ""
    | _ => False
  else False

/-- The value a valid update stores: the presented value, except that the
"name" case stores the trimmed string. -/
def appliedFieldValue (key : String) (value : UpdateValue) : UpdateValue :=
  if key = "name" then
    match value with
    | UpdateValue.vString name => UpdateValue.vString (trimSpace name)
    | _ => value
  else value

set_option maxHeartbeats 2000000 in
/-- A switch iteration for one key never touches the field of another key. -/
theorem fieldValue_applyProfileUpdate_ne (user : User) (key other : String)
    (value : UpdateValue) (h : other ≠ key) :
    fieldValue key (applyProfileUpdate user other value) = fieldValue key user := by
  cases value with
  | vInt n =>
      simp only [applyProfileUpdate]
      split_ifs
      all_goals first
        | rfl
        | (simp only [fieldValue]; split_ifs <;> first | rfl | simp_all)
  | vFloat q =>
      simp only [applyProfileUpdate]
      split_ifs
      all_goals first
        | rfl
        | (simp only [fieldValue]; split_ifs <;> first | rfl | simp_all)
  | vString s =>
      simp only [applyProfileUpdate]
      split_ifs
      all_goals first
        | rfl
        | (simp only [fieldValue]; split_ifs <;> first | rfl | simp_all)
  | vOther =>
      simp only [applyProfileUpdate]
      split_ifs <;> rfl

set_option maxHeartbeats 2000000 in
/-- A switch iteration whose guard fails leaves the user unchanged. -/
theorem applyProfileUpdate_not_valid (user : User) (key : String)
    (value : UpdateValue) (h : ¬ validUpdate key value) :
    applyProfileUpdate user key value = user := by
  cases value with
  | vInt n =>
      simp only [applyProfileUpdate]
      split_ifs <;> first | rfl | simp_all [validUpdate]
  | vFloat q =>
      simp only [applyProfileUpdate]
      split_ifs <;> first | rfl | simp_all [validUpdate]
  | vString s =>
      simp only [applyProfileUpdate]
      split_ifs <;> first | rfl | simp_all [validUpdate]
  | vOther =>
      simp only [applyProfileUpdate]
      split_ifs <;> rfl

set_option maxHeartbeats 2000000 in
/-- A switch iteration whose guard passes stores the presented value
(trimmed for "name") into the key's field. -/
theorem fieldValue_applyProfileUpdate_valid (user : User) (key : String)
    (value : UpdateValue) (h : validUpdate key value) :
    fieldValue key (applyProfileUpdate user key value) =
      appliedFieldValue key value := by
  cases value with
  | vInt n =>
      simp only [applyProfileUpdate]
      split_ifs <;> simp_all [validUpdate, fieldValue, appliedFieldValue]
  | vFloat q =>
      simp only [applyProfileUpdate]
      split_ifs <;> simp_all [validUpdate, fieldValue, appliedFieldValue]
  | vString s =>
      simp only [applyProfileUpdate]
      split_ifs <;> simp_all [validUpdate, fieldValue, appliedFieldValue]
  | vOther =>
      simp only [applyProfileUpdate]
      split_ifs <;> simp_all [validUpdate]

/-- Once a key's field holds the applied value, processing further entries
whose only occurrences of that key present the same valid value keeps it. -/
theorem validateAndApply_keeps_applied (key : String) (value : UpdateValue)
    (hvalid : validUpdate key value) :
    ∀ (updates : List (String × UpdateValue)) (user : User),
      (∀ kv ∈ updates, kv.1 = key → kv.2 = value) →
      fieldValue key user = appliedFieldValue key value →
      fieldValue key (validateAndApplyProfileUpdates user updates) =
        appliedFieldValue key value := by
  intro updates
  induction updates with
  | nil => intro user _ hfv; exact hfv
  | cons kv rest ih =>
      intro user hallkey hfv
      obtain ⟨k, v⟩ := kv
      rw [validateAndApplyProfileUpdates]
      by_cases hk : k = key
      · subst hk
        have hv : v = value := hallkey (k, v) (List.mem_cons_self _ _) rfl
        subst hv
        exact ih _ (fun kv hkv hk1 => hallkey kv (List.mem_cons_of_mem _ hkv) hk1)
          (fieldValue_applyProfileUpdate_valid user k v hvalid)
      · exact ih _ (fun kv hkv hk1 => hallkey kv (List.mem_cons_of_mem _ hkv) hk1)
          ((fieldValue_applyProfileUpdate_ne user key k v hk).trans hfv)

/-- C8: profile updates are applied per-field over an arbitrary multi-field
update map: (1) every field all of whose presented values are out-of-range
or wrong-typed — i.e. fail the switch guard — is silently ignored, leaving
that stored field unchanged (fields not presented at all are likewise
unchanged); and (2) every field presented with a valid value (the map has
one entry per key) is applied (trimmed for "name"), regardless of what
other entries the same call carries. -/
theorem validateAndApplyProfileUpdates_per_field
    (user : User) (updates : List (String × UpdateValue)) (key : String) :
    ((∀ kv ∈ updates, kv.1 = key → ¬ validUpdate key kv.2) →
      fieldValue key (validateAndApplyProfileUpdates user updates) =
        fieldValue key user) ∧
    (∀ value : UpdateValue, (key, value) ∈ updates → validUpdate key value →
      (∀ kv ∈ updates, kv.1 = key → kv.2 = value) →
      fieldValue key (validateAndApplyProfileUpdates user updates) =
        appliedFieldValue key value) := by
  constructor
  · induction updates generalizing user with
    | nil => intro _; rfl
    | cons kv rest ih =>
        intro hinv
        obtain ⟨k, v⟩ := kv
        rw [validateAndApplyProfileUpdates]
        by_cases hk : k = key
        · subst hk
          rw [applyProfileUpdate_not_valid user k v
            (hinv (k, v) (List.mem_cons_self _ _) rfl)]
          exact ih _ (fun kv hkv => hinv kv (List.mem_cons_of_mem _ hkv))
        · exact (ih _ (fun kv hkv => hinv kv (List.mem_cons_of_mem _ hkv))).trans
            (fieldValue_applyProfileUpdate_ne user key k v hk)
  · intro value
    induction updates generalizing user with
    | nil => intro hmem _ _; exact absurd hmem (List.not_mem_nil _)
    | cons kv rest ih =>
        intro hmem hvalid huniq
        obtain ⟨k, v⟩ := kv
        rw [validateAndApplyProfileUpdates]
        by_cases hk : k = key
        · subst hk
          have hv : v = value := huniq (k, v) (List.mem_cons_self _ _) rfl
          subst hv
          exact validateAndApply_keeps_applied k v hvalid rest _
            (fun kv hkv hk1 => huniq kv (List.mem_cons_of_mem _ hkv) hk1)
            (fieldValue_applyProfileUpdate_valid user k v hvalid)
        · have hmem' : (key, value) ∈ rest := by
            rcases List.mem_cons.mp hmem with heq | hmem'
            · exact absurd (congrArg Prod.fst heq).symm hk
            · exact hmem'
          exact ih _ hmem' hvalid
            (fun kv hkv hk1 => huniq kv (List.mem_cons_of_mem _ hkv) hk1)

/-- C8 witness: the per-field theorem applied at the update map
[("age", 200), ("name", "Jane")] on a user aged 37: 200 is outside 13–120,
so the stored age is kept, while the name is applied. -/
theorem validateAndApplyProfileUpdates_per_field_witness :
    (fieldValue "age"
        (validateAndApplyProfileUpdates
          (User.mk "u2" "j@b.c" "h" "Old Name" 37 "female" 170 65
            "sedentary" "endurance" 1 0)
          [("age", UpdateValue.vInt 200),
            ("name", UpdateValue.vString "Jane")]) =
      fieldValue "age"
        (User.mk "u2" "j@b.c" "h" "Old Name" 37 "female" 170 65
          "sedentary" "endurance" 1 0)) ∧
    fieldValue "name"
        (validateAndApplyProfileUpdates
          (User.mk "u2" "j@b.c" "h" "Old Name" 37 "female" 170 65
            "sedentary" "endurance" 1 0)
          [("age", UpdateValue.vInt 200),
            ("name", UpdateValue.vString "Jane")]) =
      appliedFieldValue "name" (UpdateValue.vString "Jane") :=
  ⟨(validateAndApplyProfileUpdates_per_field
      (User.mk "u2" "j@b.c" "h" "Old Name" 37 "female" 170 65
        "sedentary" "endurance" 1 0)
      [("age", UpdateValue.vInt 200), ("name", UpdateValue.vString "Jane")]
      "age").1
    (by
      intro kv hkv hk1
      simp only [List.mem_cons, List.not_mem_nil, or_false] at hkv
      rcases hkv with h | h <;> subst h <;> simp_all [validUpdate]),
   (validateAndApplyProfileUpdates_per_field
      (User.mk "u2" "j@b.c" "h" "Old Name" 37 "female" 170 65
        "sedentary" "endurance" 1 0)
      [("age", UpdateValue.vInt 200), ("name", UpdateValue.vString "Jane")]
      "name").2
    (UpdateValue.vString "Jane")
    (by simp)
    (by
      have h : trimSpace "Jane" ≠ "" := by decide
      simp [validUpdate, h])
    (by
      intro kv hkv hk1
      simp only [List.mem_cons, List.not_mem_nil, or_false] at hkv
      rcases hkv with h | h <;> subst h <;> simp_all)⟩
